import Mathlib

/-!
Verification development for `ftpanon.py`, an FTP anonymous-login scanner.

The Python module is shallowly embedded: pure string manipulation becomes
Lean functions on `String`/`List Char`; network interaction is modelled by an
explicit per-host behaviour value (what the remote side does) together with an
event trace recording the observable actions (TCP connect attempts with the
timeout actually passed to the socket call, FTP login attempts, sleeps);
Python exceptions become an `Except` result.  String routines model Python's
semantics on ASCII input (`str.strip`, `str.lower`, `str.splitlines` with
`\n`, `\r\n`, `\r` line breaks); `urllib.parse` is modelled after CPython
3.10's `urlsplit`/`hostname` (leading C0-control/space lstrip, removal of
tab/CR/LF, scheme split, netloc extraction, the mismatched-bracket
`ValueError`, userinfo/port removal and lowercasing in the `hostname`
property).
-/

namespace FtpAnon

/-- Python exceptions that the embedded code can raise or catch. -/
inductive PyExn where
  /-- `NameError`: an undefined name was referenced. -/
  | nameError (n : String)
  /-- `socket.gaierror`: DNS resolution failure (a subclass of `OSError`
  that is *not* `socket.timeout` nor `ConnectionRefusedError`). -/
  | gaierror (msg : String)
  /-- Any other `OSError` (e.g. network unreachable). -/
  | oserror (msg : String)
  /-- `ValueError`, e.g. `urlsplit`'s "Invalid IPv6 URL". -/
  | valueError (msg : String)
  deriving DecidableEq, Repr

/-! ## Python string helpers (ASCII model) -/

/-- The characters stripped by Python's default `str.strip()` (ASCII part). -/
def pyIsSpace (c : Char) : Bool :=
  c == ' ' || c == '\t' || c == '\n' || c == '\r' || c == '\x0b' || c == '\x0c'

/-- `str.strip()` on a character list: drop whitespace from both ends. -/
def pyStripList (l : List Char) : List Char :=
  ((l.dropWhile pyIsSpace).reverse.dropWhile pyIsSpace).reverse

/-- Python `s.strip()` (default whitespace stripping, ASCII model). -/
def pyStrip (s : String) : String :=
  ⟨pyStripList s.data⟩

/-- Python `s.replace(',', '\n')`: single-character replacement. -/
def replaceCommas (l : List Char) : List Char :=
  l.map fun c => if c == ',' then '\n' else c

/-- Helper for `pySplitlines`: accumulates the current line (reversed). -/
def pySplitlinesAux : List Char → List Char → List (List Char)
  | [], acc => if acc.isEmpty then [] else [acc.reverse]
  | '\r' :: '\n' :: rest, acc => acc.reverse :: pySplitlinesAux rest []
  | '\r' :: rest, acc => acc.reverse :: pySplitlinesAux rest []
  | '\n' :: rest, acc => acc.reverse :: pySplitlinesAux rest []
  | c :: rest, acc => pySplitlinesAux rest (c :: acc)

/-- Python `s.splitlines()` for the common line terminators `\n`, `\r\n`,
`\r` (no trailing empty line for a trailing terminator; `""` gives `[]`). -/
def pySplitlines (l : List Char) : List (List Char) :=
  pySplitlinesAux l []

/-! ## `urllib.parse` model (CPython 3.10 `urlsplit` + `hostname`) -/

/-- The characters of `urllib.parse.scheme_chars`. -/
def schemeChar (c : Char) : Bool :=
  c.isAlpha || c.isDigit || c == '+' || c == '-' || c == '.'

/-- `url.lstrip(_WHATWG_C0_CONTROL_OR_SPACE)`: drop leading chars ≤ U+0020. -/
def lstripC0 (l : List Char) : List Char :=
  l.dropWhile fun c => decide (c.val ≤ 32)

/-- Removal of `_UNSAFE_URL_BYTES_TO_REMOVE` (`\t`, `\r`, `\n`) anywhere. -/
def removeUnsafeBytes (l : List Char) : List Char :=
  l.filter fun c => !(c == '\t' || c == '\r' || c == '\n')

/-- `urlsplit`'s scheme handling: if the first `:` occurs at position `i > 0`
and everything before it is made of `scheme_chars`, drop `url[:i+1]`. -/
def splitScheme (l : List Char) : List Char :=
  match l.findIdx? (· == ':') with
  | some i => if 0 < i ∧ (l.take i).all schemeChar then l.drop (i + 1) else l
  | none => l

/-- `_splitnetloc`: the netloc runs up to the first `/`, `?` or `#`. -/
def takeNetloc (l : List Char) : List Char :=
  l.takeWhile fun c => !(c == '/' || c == '?' || c == '#')

/-- The netloc computed by `urlsplit(url)`: empty unless (after scheme
removal) the URL starts with `//`; raises `ValueError` for a netloc that
contains `[` without `]` or vice versa. -/
def urlsplitNetloc (url : List Char) : Except PyExn (List Char) :=
  let u := removeUnsafeBytes (lstripC0 url)
  let u2 := splitScheme u
  if u2.take 2 = ['/', '/'] then
    let netloc := takeNetloc (u2.drop 2)
    if (netloc.contains '[' && !netloc.contains ']')
        || (netloc.contains ']' && !netloc.contains '[') then
      Except.error (PyExn.valueError "Invalid IPv6 URL")
    else
      Except.ok netloc
  else
    Except.ok []

/-- Python `netloc.rpartition('@')[2]`: the part after the last `@`
(the whole string when there is no `@`). -/
def afterLastAt (l : List Char) : List Char :=
  (l.reverse.takeWhile (· ≠ '@')).reverse

/-- Python `s.partition(c)[2]` together with the found-separator flag:
`some` of the part after the first `c` when `c` occurs, else `none`. -/
def partitionAfter? (l : List Char) (c : Char) : Option (List Char) :=
  if c ∈ l then some ((l.dropWhile (· ≠ c)).drop 1) else none

/-- Python `s.partition(c)[0]`: the part before the first `c`. -/
def partitionBefore (l : List Char) (c : Char) : List Char :=
  l.takeWhile (· ≠ c)

/-- The `hostname` property of a parse result, from its netloc: strip
userinfo, take the bracketed part for IPv6-style netlocs or the part before
`:` otherwise, return `none` when empty, else the lowercased host. -/
def hostnameOfNetloc (netloc : List Char) : Option (List Char) :=
  let hostinfo := afterLastAt netloc
  let host :=
    match partitionAfter? hostinfo '[' with
    | some bracketed => partitionBefore bracketed ']'
    | none => partitionBefore hostinfo ':'
  if host.isEmpty then none else some (host.map Char.toLower)

/-- `urlparse(url).hostname` (an exception from `urlsplit` propagates). -/
def urlparseHostname (url : String) : Except PyExn (Option String) :=
  match urlsplitNetloc url.data with
  | Except.error e => Except.error e
  | Except.ok netloc => Except.ok ((hostnameOfNetloc netloc).map List.asString)

/-- `strip_url_prefix(url)`: `parsed_url.hostname if parsed_url.hostname
else url` (an empty hostname is already `None` in the model). -/
def strip_url_prefix (url : String) : Except PyExn String :=
  match urlparseHostname url with
  | Except.error e => Except.error e
  | Except.ok (some h) => Except.ok h
  | Except.ok none => Except.ok url

/-! ## `load_hosts` (modelled on the file's content; I/O errors and the
empty-content early return both yield `[]` in the source) -/

/-- A Python list comprehension over a fallible function: elements are
evaluated left to right and the first exception propagates. -/
def mapExcept (f : α → Except ε β) : List α → Except ε (List β)
  | [] => Except.ok []
  | a :: l =>
    match f a with
    | Except.error e => Except.error e
    | Except.ok b =>
      match mapExcept f l with
      | Except.error e => Except.error e
      | Except.ok bs => Except.ok (b :: bs)

/-- `load_hosts` applied to the raw file content: strip the whole content;
if empty return `[]`; otherwise replace commas by newlines, split into
lines, strip each token, and normalize each token with ` strip_url_prefix`
(whose `ValueError` would propagate, hence the `Except`). -/
def load_hosts (content : String) : Except PyExn (List String) :=
  let c := pyStrip content
  if c = "" then Except.ok []
  else
    let hosts := (pySplitlines (replaceCommas c.data)).map fun l => pyStrip ⟨l⟩
    mapExcept strip_url_prefix hosts

/-! ## Network model: per-host behaviour and observable event traces -/

/-- Observable network-affecting actions of the scanner. -/
inductive Event where
  /-- `socket.create_connection((host, port), timeout=timeout)`: records the
  timeout value actually passed to the socket call. -/
  | connectAttempt (host : String) (port : Nat) (timeout : Nat)
  /-- `ftplib.FTP(host, timeout=timeout)` followed by
  `ftp.login('anonymous', 'ilove@you.com')`: one login attempt. -/
  | loginAttempt (host : String) (timeout : Nat)
  /-- `time.sleep(n)`. -/
  | sleep (n : Nat)
  deriving DecidableEq, Repr

/-- What the remote side does when the scanner opens a TCP connection. -/
inductive ConnectBehavior where
  /-- The TCP handshake completes within the deadline. -/
  | connects
  /-- The connection is refused (`ConnectionRefusedError`). -/
  | refused
  /-- Nothing answers before the deadline (`socket.timeout`). -/
  | timedOut
  /-- Name resolution fails (`socket.gaierror`). -/
  | dnsFailure (msg : String)
  /-- Any other transport-level `OSError`. -/
  | osFailure (msg : String)
  deriving DecidableEq, Repr

/-- Outcome of one complete FTP anonymous-login exchange. -/
inductive AttemptOutcome where
  /-- Connect + login + response read + quit all succeed. -/
  | success (response : String)
  /-- Some step raises one of `ftplib.all_errors` (bad reply code,
  protocol error, timeout, `OSError`, ...), carrying a message. -/
  | failure (msg : String)
  deriving DecidableEq, Repr

/-- The full network behaviour of one host: how its TCP port answers the
connectivity probe, and the outcome of the `i`-th FTP login attempt. -/
structure HostBehavior where
  connect : ConnectBehavior
  login : Nat → AttemptOutcome

/-- `check_connectivity(hostname, port=21, timeout=5)`: one
`socket.create_connection` call; `socket.timeout` and
`ConnectionRefusedError` are caught and yield `False`, every other
exception (DNS failure, other `OSError`) propagates. -/
def check_connectivity (beh : ConnectBehavior) (hostname : String)
    (port : Nat) (timeout : Nat) : List Event × Except PyExn Bool :=
  ([Event.connectAttempt hostname port timeout],
    match beh with
    | ConnectBehavior.connects => Except.ok true
    | ConnectBehavior.refused => Except.ok false
    | ConnectBehavior.timedOut => Except.ok false
    | ConnectBehavior.dnsFailure m => Except.error (PyExn.gaierror m)
    | ConnectBehavior.osFailure m => Except.error (PyExn.oserror m))

/-- The loop body of `anonLogin`, by recursion on the remaining
iterations of `while attempt < retries` (`remaining = retries - attempt`).
A successful attempt returns `True` at once; a failed attempt is followed
by `time.sleep(2)` exactly when a further attempt remains
(`attempt + 1 < retries`, i.e. the new `remaining` is nonzero); when the
loop exhausts its attempts the function returns `False`. -/
def anonLoginLoop (login : Nat → AttemptOutcome) (hostname : String)
    (timeout : Nat) : Nat → Nat → List Event × Bool
  | _, 0 => ([], false)
  | attempt, remaining + 1 =>
    match login attempt with
    | AttemptOutcome.success _ => ([Event.loginAttempt hostname timeout], true)
    | AttemptOutcome.failure _ =>
      let rest := anonLoginLoop login hostname timeout (attempt + 1) remaining
      match remaining with
      | 0 => (Event.loginAttempt hostname timeout :: rest.1, rest.2)
      | _ + 1 =>
        (Event.loginAttempt hostname timeout :: Event.sleep 2 :: rest.1, rest.2)

/-- `anonLogin(hostname, timeout, retries)`: up to `retries` login
attempts starting from `attempt = 0`; `retries = 0` runs no attempt and
returns `False` immediately. -/
def anonLogin (login : Nat → AttemptOutcome) (hostname : String)
    (timeout : Nat) (retries : Nat) : List Event × Bool :=
  anonLoginLoop login hostname timeout 0 retries

/-- The shared `results` dictionary: four lists of host strings. -/
structure Results where
  reachable : List String
  unreachable : List String
  anon_login : List String
  anon_failures : List String
  deriving DecidableEq, Repr

/-- The `results` dictionary as initialised in `main`. -/
def emptyResults : Results := ⟨[], [], [], []⟩

/-- `process_host(host, timeout, retries, check_only, results)`:
normalize the host, probe connectivity — calling `check_connectivity(host)`
with its *default* `port=21, timeout=5` — and classify.  Reachable hosts go
to `results['reachable']`; then, unless `check_only`, `anonLogin` decides
between `results['anon_login']` and `results['anon_failures']`; unreachable
hosts go to `results['unreachable']`.  Exceptions from ` strip_url_prefix`
or from `check_connectivity` propagate out of the function. -/
def process_host (beh : HostBehavior) (host : String) (timeout retries : Nat)
    (check_only : Bool) (results : Results) : List Event × Except PyExn Results :=
  match strip_url_prefix host with
  | Except.error e => ([], Except.error e)
  | Except.ok h =>
    let probe := check_connectivity beh.connect h 21 5
    match probe.2 with
    | Except.error e => (probe.1, Except.error e)
    | Except.ok true =>
      let r1 := { results with reachable := results.reachable ++ [h] }
      if check_only then (probe.1, Except.ok r1)
      else
        let att := anonLogin beh.login h timeout retries
        if att.2 then
          (probe.1 ++ att.1, Except.ok { r1 with anon_login := r1.anon_login ++ [h] })
        else
          (probe.1 ++ att.1, Except.ok { r1 with anon_failures := r1.anon_failures ++ [h] })
    | Except.ok false =>
      (probe.1, Except.ok { results with unreachable := results.unreachable ++ [h] })

/-- `save_summary(results)` as the list of text lines written to
`summary.txt` (colour escape codes and blank separator lines omitted):
four labelled sections, one host per line with a `[+]`/`[-]` marker. -/
def save_summary (r : Results) : List String :=
  ["Summary of FTP Anonymous Login Scan", String.mk (List.replicate 40 '=')]
    ++ ["Reachable IPs:"] ++ r.reachable.map (fun ip => "[+] " ++ ip)
    ++ ["Unreachable IPs:"] ++ r.unreachable.map (fun ip => "[-] " ++ ip)
    ++ ["IPs with Successful Anonymous Logins:"]
    ++ r.anon_login.map (fun ip => "[+] " ++ ip)
    ++ ["IPs with Failed Anonymous Logins:"]
    ++ r.anon_failures.map (fun ip => "[-] " ++ ip)

/-- One interleaving of the submitted `process_host` tasks: each task runs
to completion against the shared `results`; a task that raises stores its
exception in its `Future` (never re-raised, since the completion loop dies
first — see `mainRun`) and leaves `results` as it was. -/
def runHosts (behs : String → HostBehavior) (timeout retries : Nat)
    (check_only : Bool) : List String → Results → List Event × Results
  | [], res => ([], res)
  | h :: rest, res =>
    let step := process_host (behs h) h timeout retries check_only res
    let next := match step.2 with | Except.ok r' => r' | Except.error _ => res
    let tail := runHosts behs timeout retries check_only rest next
    (step.1 ++ tail.1, tail.2)

/-- The module-level names bound in `ftpanon.py`: the `import` statements
(`import ftplib, argparse, logging, time, json, socket`,
`from colorama import Fore, Style`, `from tqdm import tqdm`,
`from concurrent.futures import ThreadPoolExecutor`,
`from urllib.parse import urlparse`) and the `def` statements.
`as_completed` is not among them (line 10 imports only
`ThreadPoolExecutor`), and it is not a Python builtin either. -/
def moduleNames : List String :=
  ["ftplib", "argparse", "logging", "time", "json", "socket",
   "Fore", "Style", "tqdm", "ThreadPoolExecutor", "urlparse",
   "setup_logging", "print_banner", "parse_arguments", "load_config",
   "print_progress_bar", "check_connectivity", "anonLogin", "process_host",
   "strip_url_prefix", "confirm_action", "load_hosts", "save_summary",
   "main"]

/-- Resolution of a global name in the module: `NameError` if unbound. -/
def lookupName (n : String) : Except PyExn Unit :=
  if n ∈ moduleNames then Except.ok () else Except.error (PyExn.nameError n)

/-- How a run of `main` ends, from the point where the host list has been
loaded. -/
inductive MainOutcome where
  /-- `main` returned before the dispatch phase (`if not hosts: return`). -/
  | exitedEarly
  /-- An uncaught exception escaped `main`. -/
  | raised (e : PyExn)
  /-- `main` printed the completion message and wrote the summary lines. -/
  | completed (summary : List String)
  deriving DecidableEq, Repr

/-- The tail of `main` after `load_hosts`: return early on an empty host
list; otherwise submit `process_host` for every host (the worker threads
run to completion), then evaluate
`tqdm(as_completed(futures), ...)` — which begins by resolving the global
name `as_completed` — and only afterwards print the completion message and
call `save_summary`. -/
def mainRun (behs : String → HostBehavior) (hosts : List String)
    (timeout retries : Nat) (check_only : Bool) : MainOutcome :=
  match hosts with
  | [] => MainOutcome.exitedEarly
  | _ :: _ =>
    let res := (runHosts behs timeout retries check_only hosts emptyResults).2
    match lookupName "as_completed" with
    | Except.error e => MainOutcome.raised e
    | Except.ok _ => MainOutcome.completed (save_summary res)

/-! ## Trace observations used by the claims -/

/-- Is this event an FTP anonymous-login attempt? -/
def isLoginEvent : Event → Bool
  | Event.loginAttempt _ _ => true
  | _ => false

/-- Number of FTP login attempts recorded in a trace. -/
def loginEventCount (evs : List Event) : Nat :=
  evs.countP isLoginEvent

/-- Does every TCP connect in the trace use deadline `t`?  (The claim that
the configured timeout governs the probe says this holds for
`t = timeoutSeconds`.) -/
def connectTimeoutsAre (t : Nat) (evs : List Event) : Bool :=
  evs.all fun e =>
    match e with
    | Event.connectAttempt _ _ tv => tv == t
    | _ => true

/-- Does every FTP login attempt in the trace use deadline `t`? -/
def loginTimeoutsAre (t : Nat) (evs : List Event) : Bool :=
  evs.all fun e =>
    match e with
    | Event.loginAttempt _ tv => tv == t
    | _ => true

/-- The per-host classification invariant: the normalized host `h` was
appended to exactly one of the reachable/unreachable buckets (and its line
appears in the summary), and — whenever the trace shows a login attempt —
to exactly one of the login-success/login-failure buckets. -/
def bucketInvariant (res r' : Results) (evs : List Event) (h : String) : Prop :=
  (((r'.reachable = res.reachable ++ [h] ∧ r'.unreachable = res.unreachable) ∧
      ("[+] " ++ h) ∈ save_summary r') ∨
    ((r'.unreachable = res.unreachable ++ [h] ∧ r'.reachable = res.reachable) ∧
      ("[-] " ++ h) ∈ save_summary r'))
  ∧ (evs.any isLoginEvent = true →
      ((r'.anon_login = res.anon_login ++ [h] ∧
          r'.anon_failures = res.anon_failures) ∨
        (r'.anon_failures = res.anon_failures ++ [h] ∧
          r'.anon_login = res.anon_login)))

/-! ## Helper lemmas -/

theorem lookup_as_completed :
    lookupName "as_completed" = Except.error (PyExn.nameError "as_completed") := by
  rfl

theorem mapExcept_length {f : α → Except ε β} :
    ∀ {l : List α} {res : List β}, mapExcept f l = Except.ok res →
      res.length = l.length := by
  intro l
  induction l with
  | nil => intro res h; simp [mapExcept] at h; simp [← h]
  | cons a l ih =>
    intro res h
    unfold mapExcept at h
    cases hf : f a with
    | error e => rw [hf] at h; exact absurd h (by simp)
    | ok b =>
      rw [hf] at h
      cases hm : mapExcept f l with
      | error e => rw [hm] at h; exact absurd h (by simp)
      | ok bs =>
        rw [hm] at h
        have hres : b :: bs = res := by injection h
        rw [← hres, List.length_cons, ih hm, List.length_cons]

theorem anonLoginLoop_events (login : Nat → AttemptOutcome) (hst : String)
    (t : Nat) :
    ∀ k a e, e ∈ (anonLoginLoop login hst t a k).1 →
      e = Event.loginAttempt hst t ∨ e = Event.sleep 2 := by
  intro k
  induction k with
  | zero => intro a e he; simp [anonLoginLoop] at he
  | succ n ih =>
    intro a e
    unfold anonLoginLoop
    cases hl : login a with
    | success r =>
      intro he
      simp at he
      exact Or.inl he
    | failure m =>
      cases n with
      | zero =>
        intro he
        simp [anonLoginLoop] at he
        exact Or.inl he
      | succ m' =>
        intro he
        simp at he
        rcases he with h1 | h1 | h1
        · exact Or.inl h1
        · exact Or.inr h1
        · exact ih (a + 1) e h1

theorem process_host_events (beh : HostBehavior) (host : String)
    (timeout retries : Nat) (check_only : Bool) (res : Results) :
    ∀ e ∈ (process_host beh host timeout retries check_only res).1,
      ∃ h, strip_url_prefix host = Except.ok h ∧
        (e = Event.connectAttempt h 21 5 ∨ e = Event.loginAttempt h timeout ∨
         e = Event.sleep 2) := by
  intro e he
  unfold process_host at he
  cases hs : strip_url_prefix host with
  | error err => rw [hs] at he; simp at he
  | ok h =>
    rw [hs] at he
    refine ⟨h, rfl, ?_⟩
    cases hc : beh.connect <;> rw [hc] at he <;>
      simp [check_connectivity] at he
    case connects =>
      cases hco : check_only with
      | true => simp [hco] at he; simp [he]
      | false =>
        rw [hco] at he
        simp at he
        cases hatt : (anonLogin beh.login h timeout retries).2 <;>
            rw [hatt] at he <;> simp at he <;>
          rcases he with h1 | h1
        · simp [h1]
        · exact Or.inr (anonLoginLoop_events beh.login h timeout retries 0 e h1)
        · simp [h1]
        · exact Or.inr (anonLoginLoop_events beh.login h timeout retries 0 e h1)
    all_goals simp [he]

theorem char_toNat_ofNat_lt {m : Nat} (h : m < 55296) :
    (Char.ofNat m).toNat = m := by
  have hv : m.isValidChar := Or.inl h
  rw [Char.ofNat, dif_pos hv]
  rfl

theorem toLower_eq_slash {c : Char} (h : Char.toLower c = '/') : c = '/' := by
  simp only [Char.toLower] at h
  split at h
  · exfalso
    have h2 := congrArg Char.toNat h
    rw [char_toNat_ofNat_lt (by omega)] at h2
    have h47 : Char.toNat '/' = 47 := rfl
    omega
  · exact h

theorem afterLastAt_subset (l : List Char) : afterLastAt l ⊆ l := by
  intro c hc
  unfold afterLastAt at hc
  rw [List.mem_reverse] at hc
  have h2 := List.takeWhile_subset _ hc
  rwa [List.mem_reverse] at h2

theorem hostname_chars {netloc host : List Char}
    (hh : hostnameOfNetloc netloc = some host) :
    ∀ c ∈ host, ∃ c₀ ∈ netloc, c = Char.toLower c₀ := by
  simp only [hostnameOfNetloc] at hh
  cases hb : partitionAfter? (afterLastAt netloc) '[' with
  | some bracketed =>
    rw [hb] at hh
    split at hh
    · exact absurd hh (by simp)
    · have hmap : (partitionBefore bracketed ']').map Char.toLower = host := by
        injection hh
      intro c hcmem
      rw [← hmap, List.mem_map] at hcmem
      obtain ⟨c₀, hc₀, rfl⟩ := hcmem
      refine ⟨c₀, ?_, rfl⟩
      have h1 : c₀ ∈ bracketed := List.takeWhile_subset _ hc₀
      have h2 : bracketed = ((afterLastAt netloc).dropWhile (· ≠ '[')).drop 1 := by
        simp only [partitionAfter?] at hb
        split at hb
        · injection hb with hb'; exact hb'.symm
        · exact absurd hb (by simp)
      rw [h2] at h1
      have h3 := List.drop_subset _ _ h1
      have h4 := List.dropWhile_subset _ h3
      exact afterLastAt_subset netloc h4
  | none =>
    rw [hb] at hh
    split at hh
    · exact absurd hh (by simp)
    · have hmap : (partitionBefore (afterLastAt netloc) ':').map Char.toLower
          = host := by injection hh
      intro c hcmem
      rw [← hmap, List.mem_map] at hcmem
      obtain ⟨c₀, hc₀, rfl⟩ := hcmem
      exact ⟨c₀, afterLastAt_subset netloc (List.takeWhile_subset _ hc₀), rfl⟩

theorem netloc_chars {url netloc : List Char}
    (hn : urlsplitNetloc url = Except.ok netloc) : ∀ c ∈ netloc, c ≠ '/' := by
  simp only [urlsplitNetloc] at hn
  split at hn
  · split at hn
    · exact absurd hn (by simp)
    · have hq : takeNetloc ((splitScheme (removeUnsafeBytes (lstripC0 url))).drop 2)
          = netloc := by injection hn
      intro c hc hc'
      rw [← hq] at hc
      have hp := List.mem_takeWhile_imp hc
      rw [hc'] at hp
      simp at hp
  · have hq : ([] : List Char) = netloc := by injection hn
    intro c hc
    rw [← hq] at hc
    simp at hc

theorem splitScheme_subset (l : List Char) : splitScheme l ⊆ l := by
  unfold splitScheme
  cases h : l.findIdx? (· == ':') with
  | none => exact fun _ hx => hx
  | some i =>
    change (if 0 < i ∧ (List.take i l).all schemeChar = true
        then List.drop (i + 1) l else l) ⊆ l
    by_cases hc : 0 < i ∧ (List.take i l).all schemeChar = true
    · rw [if_pos hc]; exact List.drop_subset _ _
    · rw [if_neg hc]; exact fun _ hx => hx

theorem no_slash_netloc_empty {l : List Char} (hs : '/' ∉ l) :
    urlsplitNetloc l = Except.ok [] := by
  unfold urlsplitNetloc
  rw [if_neg]
  intro hcontra
  have h1 : '/' ∈ (splitScheme (removeUnsafeBytes (lstripC0 l))).take 2 := by
    rw [hcontra]; simp
  have h2 := List.take_subset _ _ h1
  have h3 := splitScheme_subset _ h2
  have h4 := List.mem_of_mem_filter h3
  exact hs (List.dropWhile_subset _ h4)

theorem hostnameOfNetloc_nil : hostnameOfNetloc [] = none := rfl

theorem save_summary_mem_plus (r : Results) (ip : String)
    (hip : ip ∈ r.reachable ∨ ip ∈ r.anon_login) :
    ("[+] " ++ ip) ∈ save_summary r := by
  unfold save_summary
  rcases hip with hip | hip
  · exact List.mem_append_left _ (List.mem_append_left _
      (List.mem_append_left _ (List.mem_append_left _
        (List.mem_append_left _ (List.mem_append_left _
          (List.mem_append_right _ (List.mem_map_of_mem _ hip)))))))
  · exact List.mem_append_left _ (List.mem_append_left _
      (List.mem_append_right _ (List.mem_map_of_mem _ hip)))

theorem save_summary_mem_minus (r : Results) (ip : String)
    (hip : ip ∈ r.unreachable ∨ ip ∈ r.anon_failures) :
    ("[-] " ++ ip) ∈ save_summary r := by
  unfold save_summary
  rcases hip with hip | hip
  · exact List.mem_append_left _ (List.mem_append_left _
      (List.mem_append_left _ (List.mem_append_left _
        (List.mem_append_right _ (List.mem_map_of_mem _ hip)))))
  · exact List.mem_append_right _ (List.mem_map_of_mem _ hip)

theorem process_host_checkOnly_no_login (beh : HostBehavior) (host : String)
    (t r : Nat) (res : Results) :
    loginEventCount (process_host beh host t r true res).1 = 0 := by
  unfold process_host
  cases hs : strip_url_prefix host with
  | error e => rfl
  | ok h => cases hc : beh.connect <;> rfl

theorem runHosts_checkOnly_no_login (behs : String → HostBehavior)
    (t r : Nat) : ∀ (hosts : List String) (res : Results),
      loginEventCount (runHosts behs t r true hosts res).1 = 0 := by
  intro hosts
  induction hosts with
  | nil => intro res; rfl
  | cons hh rest ih =>
    intro res
    simp only [runHosts, loginEventCount, List.countP_append]
    have h1 := process_host_checkOnly_no_login (behs hh) hh t r res
    simp only [loginEventCount] at h1
    rw [h1]
    have h2 := ih (match (process_host (behs hh) hh t r true res).2 with
      | Except.ok r' => r' | Except.error _ => res)
    simp only [loginEventCount] at h2
    rw [h2]

theorem process_host_checkOnly_anon_unchanged (beh : HostBehavior)
    (host : String) (t r : Nat) (res r' : Results)
    (hok : (process_host beh host t r true res).2 = Except.ok r') :
    r'.anon_login = res.anon_login ∧ r'.anon_failures = res.anon_failures := by
  unfold process_host at hok
  cases hs : strip_url_prefix host with
  | error e => rw [hs] at hok; exact absurd hok (by simp)
  | ok h =>
    rw [hs] at hok
    cases hc : beh.connect <;> rw [hc] at hok <;>
      simp only [check_connectivity] at hok
    case connects =>
      have h1 : { res with reachable := res.reachable ++ [h] } = r' := by
        simpa using hok
      rw [← h1]
      exact ⟨rfl, rfl⟩
    case refused =>
      have h1 : { res with unreachable := res.unreachable ++ [h] } = r' := by
        simpa using hok
      rw [← h1]
      exact ⟨rfl, rfl⟩
    case timedOut =>
      have h1 : { res with unreachable := res.unreachable ++ [h] } = r' := by
        simpa using hok
      rw [← h1]
      exact ⟨rfl, rfl⟩
    case dnsFailure m => exact absurd hok (by simp)
    case osFailure m => exact absurd hok (by simp)

theorem runHosts_checkOnly_anon_unchanged (behs : String → HostBehavior)
    (t r : Nat) : ∀ (hosts : List String) (res : Results),
      (runHosts behs t r true hosts res).2.anon_login = res.anon_login
      ∧ (runHosts behs t r true hosts res).2.anon_failures = res.anon_failures := by
  intro hosts
  induction hosts with
  | nil => intro res; exact ⟨rfl, rfl⟩
  | cons hh rest ih =>
    intro res
    simp only [runHosts]
    cases hok : (process_host (behs hh) hh t r true res).2 with
    | ok r' =>
      obtain ⟨ha, hb⟩ :=
        process_host_checkOnly_anon_unchanged (behs hh) hh t r res r' hok
      obtain ⟨hc', hd⟩ := ih r'
      exact ⟨hc'.trans ha, hd.trans hb⟩
    | error e => exact ih res

/-! ## Claims -/

/-- C1: for every non-empty host list, the dispatch loop in `main`
references the global name `as_completed`, which is bound neither by the
module's imports (line 10 imports only `ThreadPoolExecutor`) nor by any
`def`, so every run that reaches the dispatch phase raises `NameError` and
never reaches the completion message or the summary. -/
theorem c1_dispatch_raises_nameError (behs : String → HostBehavior)
    (hosts : List String) (timeout retries : Nat) (check_only : Bool)
    (hne : hosts ≠ []) :
    mainRun behs hosts timeout retries check_only
      = MainOutcome.raised (PyExn.nameError "as_completed") := by
  cases hosts with
  | nil => exact absurd rfl hne
  | cons x rest => simp [mainRun, lookup_as_completed]

/-- Witness for C1 at the one-host list `["203.0.113.5"]`. -/
theorem c1_witness :
    mainRun (fun _ => ⟨ConnectBehavior.connects,
        fun _ => AttemptOutcome.success "230 Login successful."⟩)
      ["203.0.113.5"] 5 1 false
      = MainOutcome.raised (PyExn.nameError "as_completed") :=
  c1_dispatch_raises_nameError _ ["203.0.113.5"] 5 1 false (by simp)

/-- C2 counterexample: with configured `timeoutSeconds = 1`, the probe's
socket call inside `process_host` is made with the `check_connectivity`
default timeout 5 (the call site passes no timeout argument), so the
connect deadline is not the configured value. -/
theorem c2_counterexample :
    (process_host ⟨ConnectBehavior.connects,
        fun _ => AttemptOutcome.failure "530 Login incorrect."⟩
      "203.0.113.5" 1 1 true emptyResults).1
        = [Event.connectAttempt "203.0.113.5" 21 5]
    ∧ connectTimeoutsAre 1
        (process_host ⟨ConnectBehavior.connects,
            fun _ => AttemptOutcome.failure "530 Login incorrect."⟩
          "203.0.113.5" 1 1 true emptyResults).1 = false :=
  ⟨rfl, rfl⟩

/-- C2 amended: every TCP connect performed by `process_host` uses the
fixed default deadline of 5 seconds — independent of the configured
`timeoutSeconds` — while every FTP login attempt uses the configured
timeout. -/
theorem c2_amended_connect_timeout_is_default (beh : HostBehavior)
    (host : String) (timeout retries : Nat) (check_only : Bool)
    (res : Results) :
    connectTimeoutsAre 5
        (process_host beh host timeout retries check_only res).1 = true
    ∧ loginTimeoutsAre timeout
        (process_host beh host timeout retries check_only res).1 = true := by
  constructor
  · rw [connectTimeoutsAre, List.all_eq_true]
    intro e he
    obtain ⟨h, -, h1 | h1 | h1⟩ :=
      process_host_events beh host timeout retries check_only res e he <;>
      simp [h1]
  · rw [loginTimeoutsAre, List.all_eq_true]
    intro e he
    obtain ⟨h, -, h1 | h1 | h1⟩ :=
      process_host_events beh host timeout retries check_only res e he <;>
      simp [h1]

/-- C3 counterexample: a DNS-resolution failure in the connectivity probe
(`socket.gaierror` is caught neither by `check_connectivity`, which
handles only `socket.timeout` and `ConnectionRefusedError`, nor by
`process_host`) propagates out of the per-host process boundary, and the
host lands in no bucket. -/
theorem c3_counterexample :
    process_host ⟨ConnectBehavior.dnsFailure "getaddrinfo failed",
        fun _ => AttemptOutcome.failure ""⟩
      "badhost.invalid" 5 1 false emptyResults
      = ([Event.connectAttempt "badhost.invalid" 21 5],
         Except.error (PyExn.gaierror "getaddrinfo failed")) := rfl

/-- C3 amended: connection refusal and connect timeout are classified
Unreachable and never escape `process_host`, but DNS-resolution failures
and other `OSError`s are not caught and propagate out of the per-host
boundary as exceptions. -/
theorem c3_amended_only_refusal_and_timeout_caught (host h : String)
    (lb : Nat → AttemptOutcome) (t r : Nat) (co : Bool) (res : Results)
    (m1 m2 : String) (hs : strip_url_prefix host = Except.ok h) :
    process_host ⟨ConnectBehavior.refused, lb⟩ host t r co res
        = ([Event.connectAttempt h 21 5],
           Except.ok { res with unreachable := res.unreachable ++ [h] })
    ∧ process_host ⟨ConnectBehavior.timedOut, lb⟩ host t r co res
        = ([Event.connectAttempt h 21 5],
           Except.ok { res with unreachable := res.unreachable ++ [h] })
    ∧ process_host ⟨ConnectBehavior.dnsFailure m1, lb⟩ host t r co res
        = ([Event.connectAttempt h 21 5], Except.error (PyExn.gaierror m1))
    ∧ process_host ⟨ConnectBehavior.osFailure m2, lb⟩ host t r co res
        = ([Event.connectAttempt h 21 5], Except.error (PyExn.oserror m2)) := by
  refine ⟨?_, ?_, ?_, ?_⟩ <;> (unfold process_host; rw [hs]; rfl)

/-- Witness for C3's amended theorem at host `"192.0.2.9"`. -/
theorem c3_witness :
    process_host ⟨ConnectBehavior.refused, fun _ => AttemptOutcome.failure "x"⟩
        "192.0.2.9" 5 2 false emptyResults
        = ([Event.connectAttempt "192.0.2.9" 21 5],
           Except.ok { emptyResults with
                        unreachable := emptyResults.unreachable ++ ["192.0.2.9"] })
    ∧ process_host ⟨ConnectBehavior.timedOut, fun _ => AttemptOutcome.failure "x"⟩
        "192.0.2.9" 5 2 false emptyResults
        = ([Event.connectAttempt "192.0.2.9" 21 5],
           Except.ok { emptyResults with
                        unreachable := emptyResults.unreachable ++ ["192.0.2.9"] })
    ∧ process_host ⟨ConnectBehavior.dnsFailure "dns", fun _ => AttemptOutcome.failure "x"⟩
        "192.0.2.9" 5 2 false emptyResults
        = ([Event.connectAttempt "192.0.2.9" 21 5],
           Except.error (PyExn.gaierror "dns"))
    ∧ process_host ⟨ConnectBehavior.osFailure "os", fun _ => AttemptOutcome.failure "x"⟩
        "192.0.2.9" 5 2 false emptyResults
        = ([Event.connectAttempt "192.0.2.9" 21 5],
           Except.error (PyExn.oserror "os")) :=
  c3_amended_only_refusal_and_timeout_caught "192.0.2.9" "192.0.2.9"
    (fun _ => AttemptOutcome.failure "x") 5 2 false emptyResults "dns" "os" rfl

/-- C4 counterexample: with `retryCount = 0` a reachable host gets no
login attempt (the trace holds only the connect event), yet it is recorded
in `anon_failures` — classified as a login failure, not as skipped. -/
theorem c4_counterexample :
    process_host ⟨ConnectBehavior.connects,
        fun _ => AttemptOutcome.failure "530 Login incorrect."⟩
      "192.0.2.1" 5 0 false emptyResults
      = ([Event.connectAttempt "192.0.2.1" 21 5],
         Except.ok ⟨["192.0.2.1"], [], [], ["192.0.2.1"]⟩) := rfl

/-- C4 amended: when `retryCount = 0` and the host is reachable with
`check_only` unset, no login attempt is made (`anonLogin`'s loop body
never runs), but `anonLogin` returns `False` and `process_host` records
the host in the `anon_failures` bucket — not as skipped. -/
theorem c4_amended_zero_retries_counted_as_failure (host h : String)
    (lb : Nat → AttemptOutcome) (t : Nat) (res : Results)
    (hs : strip_url_prefix host = Except.ok h) :
    process_host ⟨ConnectBehavior.connects, lb⟩ host t 0 false res
      = ([Event.connectAttempt h 21 5],
         Except.ok { res with reachable := res.reachable ++ [h],
                              anon_failures := res.anon_failures ++ [h] }) := by
  unfold process_host
  rw [hs]
  rfl

/-- Witness for C4's amended theorem at host `"192.0.2.2"`. -/
theorem c4_witness :
    process_host ⟨ConnectBehavior.connects, fun _ => AttemptOutcome.failure "530"⟩
      "192.0.2.2" 5 0 false emptyResults
      = ([Event.connectAttempt "192.0.2.2" 21 5],
         Except.ok { emptyResults with
                      reachable := emptyResults.reachable ++ ["192.0.2.2"],
                      anon_failures := emptyResults.anon_failures ++ ["192.0.2.2"] }) :=
  c4_amended_zero_retries_counted_as_failure "192.0.2.2" "192.0.2.2"
    (fun _ => AttemptOutcome.failure "530") 5 emptyResults rfl

/-- C6: `anonLogin` with `retries = 3` against a server that rejects every
attempt performs exactly 3 attempts separated by exactly 2 sleeps of 2
time units and returns `False`; against a server whose first attempt
succeeds (whether all attempts would succeed or only the first) it returns
`True` immediately after one attempt with no sleep. -/
theorem c6_retry_schedule (hst : String) (t : Nat)
    (msgf respf : Nat → String) (m resp : String) :
    anonLogin (fun i => AttemptOutcome.failure (msgf i)) hst t 3
        = ([Event.loginAttempt hst t, Event.sleep 2, Event.loginAttempt hst t,
            Event.sleep 2, Event.loginAttempt hst t], false)
    ∧ anonLogin (fun i => AttemptOutcome.success (respf i)) hst t 3
        = ([Event.loginAttempt hst t], true)
    ∧ anonLogin (fun i => if i == 0 then AttemptOutcome.failure m
          else AttemptOutcome.success resp) hst t 3
        = ([Event.loginAttempt hst t, Event.sleep 2, Event.loginAttempt hst t],
           true) :=
  ⟨rfl, rfl, rfl⟩

/-- C10: with `check_only` set, no execution of the scan ever records an
FTP login attempt — neither a single `process_host` call (for any host
behaviour, reachable or not) nor the whole dispatched run over any host
list — and reachable hosts are recorded with login Skipped: a host whose
probe connects is appended to the reachable bucket only, while the
`anon_login`/`anon_failures` buckets are left untouched by every
normally-returning `process_host` call and by every whole run. -/
theorem c10_check_only_never_logs_in :
    (∀ (beh : HostBehavior) (host : String) (t r : Nat) (res : Results),
      loginEventCount (process_host beh host t r true res).1 = 0)
    ∧ (∀ (host h : String) (lb : Nat → AttemptOutcome) (t r : Nat)
        (res : Results), strip_url_prefix host = Except.ok h →
        process_host ⟨ConnectBehavior.connects, lb⟩ host t r true res
          = ([Event.connectAttempt h 21 5],
             Except.ok { res with reachable := res.reachable ++ [h] }))
    ∧ (∀ (beh : HostBehavior) (host : String) (t r : Nat) (res r' : Results),
        (process_host beh host t r true res).2 = Except.ok r' →
        r'.anon_login = res.anon_login ∧ r'.anon_failures = res.anon_failures)
    ∧ ∀ (behs : String → HostBehavior) (t r : Nat) (hosts : List String)
        (res : Results),
      loginEventCount (runHosts behs t r true hosts res).1 = 0
      ∧ (runHosts behs t r true hosts res).2.anon_login = res.anon_login
      ∧ (runHosts behs t r true hosts res).2.anon_failures = res.anon_failures :=
  ⟨fun beh host t r res => process_host_checkOnly_no_login beh host t r res,
   fun host h lb t r res hs => by unfold process_host; rw [hs]; rfl,
   fun beh host t r res r' hok =>
     process_host_checkOnly_anon_unchanged beh host t r res r' hok,
   fun behs t r hosts res =>
     ⟨runHosts_checkOnly_no_login behs t r hosts res,
      (runHosts_checkOnly_anon_unchanged behs t r hosts res).1,
      (runHosts_checkOnly_anon_unchanged behs t r hosts res).2⟩⟩

/-- Witness for C10: a reachable host under `check_only` is recorded in
the reachable bucket only, with both anonymous-login buckets untouched. -/
theorem c10_witness :
    process_host ⟨ConnectBehavior.connects, fun _ => AttemptOutcome.failure "530"⟩
        "198.51.100.4" 5 3 true emptyResults
      = ([Event.connectAttempt "198.51.100.4" 21 5],
         Except.ok { emptyResults with
                      reachable := emptyResults.reachable ++ ["198.51.100.4"] })
    ∧ (⟨["198.51.100.4"], [], [], []⟩ : Results).anon_login
          = emptyResults.anon_login
    ∧ (⟨["198.51.100.4"], [], [], []⟩ : Results).anon_failures
          = emptyResults.anon_failures :=
  ⟨c10_check_only_never_logs_in.2.1 "198.51.100.4" "198.51.100.4"
      (fun _ => AttemptOutcome.failure "530") 5 3 emptyResults rfl,
   (c10_check_only_never_logs_in.2.2.1
      ⟨ConnectBehavior.connects, fun _ => AttemptOutcome.failure "530"⟩
      "198.51.100.4" 5 3 emptyResults ⟨["198.51.100.4"], [], [], []⟩ rfl).1,
   (c10_check_only_never_logs_in.2.2.1
      ⟨ConnectBehavior.connects, fun _ => AttemptOutcome.failure "530"⟩
      "198.51.100.4" 5 3 emptyResults ⟨["198.51.100.4"], [], [], []⟩ rfl).2⟩

/-- C5: every host whose `process_host` call returns normally is appended
to exactly one of the reachable/unreachable buckets, its marker line is in
the summary, and — when a login attempt appears in the trace — it is
appended to exactly one of the login-succeeded/login-failed buckets. -/
theorem c5_exactly_one_bucket (beh : HostBehavior) (host : String)
    (timeout retries : Nat) (check_only : Bool) (res r' : Results)
    (evs : List Event)
    (hrun : process_host beh host timeout retries check_only res
      = (evs, Except.ok r')) :
    ∃ h, strip_url_prefix host = Except.ok h ∧ bucketInvariant res r' evs h := by
  unfold process_host at hrun
  cases hs : strip_url_prefix host with
  | error e =>
    rw [hs] at hrun
    exfalso
    have h2 := congrArg Prod.snd hrun
    simp at h2
  | ok h =>
    rw [hs] at hrun
    refine ⟨h, rfl, ?_⟩
    cases hc : beh.connect
    case connects =>
      rw [hc] at hrun
      cases check_only with
      | true =>
        simp only [check_connectivity] at hrun
        have hev : evs = [Event.connectAttempt h 21 5] := by
          have h1 := congrArg Prod.fst hrun
          simpa using h1.symm
        have hr2 : r' = { res with reachable := res.reachable ++ [h] } := by
          have h1 := congrArg Prod.snd hrun
          simp at h1
          exact h1.symm
        subst hev hr2
        refine ⟨Or.inl ⟨⟨rfl, rfl⟩,
          save_summary_mem_plus _ h (Or.inl (by simp))⟩, ?_⟩
        intro hany
        simp [isLoginEvent] at hany
      | false =>
        simp only [check_connectivity] at hrun
        cases hatt : (anonLogin beh.login h timeout retries).2 with
        | true =>
          simp only [hatt] at hrun
          have hev : evs = Event.connectAttempt h 21 5
              :: (anonLogin beh.login h timeout retries).1 := by
            have h1 := congrArg Prod.fst hrun
            simpa using h1.symm
          have hr2 : r' = { res with reachable := res.reachable ++ [h],
                                     anon_login := res.anon_login ++ [h] } := by
            have h1 := congrArg Prod.snd hrun
            simp at h1
            exact h1.symm
          subst hev hr2
          exact ⟨Or.inl ⟨⟨rfl, rfl⟩,
            save_summary_mem_plus _ h (Or.inl (by simp))⟩,
            fun _ => Or.inl ⟨rfl, rfl⟩⟩
        | false =>
          simp only [hatt] at hrun
          have hev : evs = Event.connectAttempt h 21 5
              :: (anonLogin beh.login h timeout retries).1 := by
            have h1 := congrArg Prod.fst hrun
            simpa using h1.symm
          have hr2 : r' = { res with reachable := res.reachable ++ [h],
                                     anon_failures := res.anon_failures ++ [h] } := by
            have h1 := congrArg Prod.snd hrun
            simp at h1
            exact h1.symm
          subst hev hr2
          exact ⟨Or.inl ⟨⟨rfl, rfl⟩,
            save_summary_mem_plus _ h (Or.inl (by simp))⟩,
            fun _ => Or.inr ⟨rfl, rfl⟩⟩
    case refused =>
      rw [hc] at hrun
      simp only [check_connectivity] at hrun
      have hev : evs = [Event.connectAttempt h 21 5] := by
        have h1 := congrArg Prod.fst hrun
        simpa using h1.symm
      have hr2 : r' = { res with unreachable := res.unreachable ++ [h] } := by
        have h1 := congrArg Prod.snd hrun
        simp at h1
        exact h1.symm
      subst hev hr2
      refine ⟨Or.inr ⟨⟨rfl, rfl⟩,
        save_summary_mem_minus _ h (Or.inl (by simp))⟩, ?_⟩
      intro hany
      simp [isLoginEvent] at hany
    case timedOut =>
      rw [hc] at hrun
      simp only [check_connectivity] at hrun
      have hev : evs = [Event.connectAttempt h 21 5] := by
        have h1 := congrArg Prod.fst hrun
        simpa using h1.symm
      have hr2 : r' = { res with unreachable := res.unreachable ++ [h] } := by
        have h1 := congrArg Prod.snd hrun
        simp at h1
        exact h1.symm
      subst hev hr2
      refine ⟨Or.inr ⟨⟨rfl, rfl⟩,
        save_summary_mem_minus _ h (Or.inl (by simp))⟩, ?_⟩
      intro hany
      simp [isLoginEvent] at hany
    case dnsFailure m =>
      rw [hc] at hrun
      simp only [check_connectivity] at hrun
      exfalso
      have h2 := congrArg Prod.snd hrun
      simp at h2
    case osFailure m =>
      rw [hc] at hrun
      simp only [check_connectivity] at hrun
      exfalso
      have h2 := congrArg Prod.snd hrun
      simp at h2

/-- Witness for C5: a reachable host with a succeeding anonymous login. -/
theorem c5_witness :
    ∃ h, strip_url_prefix "192.0.2.5" = Except.ok h ∧
      bucketInvariant emptyResults ⟨["192.0.2.5"], [], ["192.0.2.5"], []⟩
        [Event.connectAttempt "192.0.2.5" 21 5,
         Event.loginAttempt "192.0.2.5" 5] h :=
  c5_exactly_one_bucket
    ⟨ConnectBehavior.connects, fun _ => AttemptOutcome.success "230 Login successful."⟩
    "192.0.2.5" 5 1 false emptyResults ⟨["192.0.2.5"], [], ["192.0.2.5"], []⟩
    [Event.connectAttempt "192.0.2.5" 21 5, Event.loginAttempt "192.0.2.5" 5]
    rfl

/-- C7 counterexample: a host-list file content with an interior blank
line yields an empty-string entry in the returned host sequence — blank
lines are not ignored. -/
theorem c7_counterexample :
    load_hosts "192.168.1.1\n\n192.168.1.2"
        = Except.ok ["192.168.1.1", "", "192.168.1.2"]
    ∧ "" ∈ ["192.168.1.1", "", "192.168.1.2"] :=
  ⟨rfl, by simp⟩

/-- C7 amended: `load_hosts` strips each token but never filters lines
out: the output has exactly one entry per line of the comma-normalized,
outer-stripped content, and interior blank or whitespace-only lines
survive as empty-string entries. -/
theorem c7_amended_blank_lines_kept :
    (∀ (content : String) (hs : List String),
      load_hosts content = Except.ok hs → pyStrip content ≠ "" →
        hs.length = (pySplitlines (replaceCommas (pyStrip content).data)).length)
    ∧ load_hosts "192.0.2.7\n \t \n192.0.2.8"
        = Except.ok ["192.0.2.7", "", "192.0.2.8"] := by
  constructor
  · intro content hs hld hne
    simp only [load_hosts] at hld
    rw [if_neg hne] at hld
    rw [mapExcept_length hld, List.length_map]
  · rfl

/-- Witness for C7's amended theorem on a two-host comma file. -/
theorem c7_witness :
    (["a", "b"] : List String).length
      = (pySplitlines (replaceCommas (pyStrip "a,b").data)).length :=
  c7_amended_blank_lines_kept.1 "a,b" ["a", "b"] rfl (by decide)

/-- C8 counterexample: when URL parsing yields no host component,
` strip_url_prefix` returns the raw string *unchanged*, not trimmed:
on `"  example.com  "` it keeps the surrounding whitespace. -/
theorem c8_counterexample :
    strip_url_prefix "  example.com  " = Except.ok "  example.com  "
    ∧ "  example.com  " ≠ "example.com" :=
  ⟨rfl, by decide⟩

/-- C8 amended: when URL parsing yields no host component the raw string
is returned unchanged (no trimming inside the normalizer); the trimming of
`"  example.com  "` to `"example.com"` is done by `load_hosts`, which
strips each token before normalizing it. -/
theorem c8_amended_raw_returned_unchanged :
    (∀ s, urlparseHostname s = Except.ok none →
      strip_url_prefix s = Except.ok s)
    ∧ pyStrip "  example.com  " = "example.com"
    ∧ load_hosts "  example.com  " = Except.ok ["example.com"] := by
  refine ⟨?_, rfl, rfl⟩
  intro s hsn
  unfold strip_url_prefix
  rw [hsn]

/-- Witness for C8's amended theorem at `"example.com"`. -/
theorem c8_witness : strip_url_prefix "example.com" = Except.ok "example.com" :=
  c8_amended_raw_returned_unchanged.1 "example.com" rfl

/-- C9: the host normalizer is idempotent — whenever ` strip_url_prefix`
returns a value (rather than raising `ValueError`), normalizing that value
returns it unchanged: a hostname extracted from a netloc contains no `/`
(lowercasing cannot introduce one), so re-parsing it finds no netloc. -/
theorem c9_normalize_idempotent (s h : String)
    (hs : strip_url_prefix s = Except.ok h) :
    strip_url_prefix h = Except.ok h := by
  unfold strip_url_prefix at hs
  cases hu : urlparseHostname s with
  | error e =>
    rw [hu] at hs
    exact absurd hs (by simp)
  | ok o =>
    rw [hu] at hs
    cases o with
    | none =>
      have hsh : s = h := by injection hs
      subst hsh
      unfold strip_url_prefix
      rw [hu]
    | some v =>
      have hvh : v = h := by injection hs
      subst hvh
      unfold urlparseHostname at hu
      cases hn : urlsplitNetloc s.data with
      | error e =>
        rw [hn] at hu
        exact absurd hu (by simp)
      | ok netloc =>
        rw [hn] at hu
        have hmap : (hostnameOfNetloc netloc).map List.asString = some v := by
          injection hu
        cases hhost : hostnameOfNetloc netloc with
        | none => rw [hhost] at hmap; exact absurd hmap (by simp)
        | some pre =>
          rw [hhost] at hmap
          have hpre : List.asString pre = v := by
            simpa using hmap
          have hvdata : v.data = pre := by rw [← hpre]; rfl
          have hnos : '/' ∉ v.data := by
            rw [hvdata]
            intro hmem
            obtain ⟨c₀, hc₀, heq⟩ := hostname_chars hhost '/' hmem
            exact netloc_chars hn c₀ hc₀ (toLower_eq_slash heq.symm)
          unfold strip_url_prefix urlparseHostname
          rw [no_slash_netloc_empty hnos]
          rfl

/-- Witness for C9: the already-normalized `"203.0.113.5"` (obtained from
`"ftp://203.0.113.5:21/pub"`) normalizes to itself. -/
theorem c9_witness :
    strip_url_prefix "203.0.113.5" = Except.ok "203.0.113.5" :=
  c9_normalize_idempotent "ftp://203.0.113.5:21/pub" "203.0.113.5" rfl

end FtpAnon
